import Mathlib

/-
Verification of the ODeX analytics dashboard (src/app2.py) against its
natural-language specification.

Shallow embedding conventions:
* Each spreadsheet table is a list of rows; identifiers (Customer ID,
  Module Used, Country, Customer Type) are modelled as naturals, since the
  dashboard only compares them for equality and sorts group keys.
* Currency and percentage columns are rationals; transaction counts are
  naturals; the Month column is an integer calendar-month index (the spec
  states that day-of-month is irrelevant and comparisons are by calendar
  month, and pd.DateOffset arithmetic on month indices is subtraction).
* pandas groupby sorts group keys ascending (its default sort flag), so a
  grouped table is a map over the sorted deduplicated key list.
* pandas sort_values with ascending false computes a stable ascending
  argsort and reverses it (pandas.core.sorting.nargsort reverses the
  indexer); numpy's default sort is stable insertion sort below 16
  elements, which covers every concrete input used here.  We model it as
  List.insertionSort followed by reverse.
* pandas merge with default how inner, on a right table whose keys are
  unique, keeps the left row order and attaches the matching right row;
  we model it with filterMap over the left table and find? on the right.
* pandas division is real division; we use rational division, and where a
  pandas denominator could be zero (NaN or inf in pandas, junk 0 in ℚ) the
  theorems carry an explicit well-formedness hypothesis instead.
-/

namespace Odex

/-- Row of the Transaction Data sheet: Customer ID, Month (calendar-month
index), Module Used, No. of Transactions, Total Revenue. -/
structure TransRow where
  cust : ℕ
  month : ℤ
  moduleUsed : ℕ
  nTrans : ℕ
  revenue : ℚ
deriving DecidableEq

/-- Row of the Customer Master sheet: Customer ID, Country, Customer Type. -/
structure CustRow where
  cust : ℕ
  country : ℕ
  ctype : ℕ
deriving DecidableEq

/-- Row of the Support Data sheet. -/
structure SupportRow where
  cust : ℕ
  tickets : ℕ
  failedTrans : ℕ
  resolutionHrs : ℚ
  payFailures : ℕ
deriving DecidableEq

/-- Row of the Pricing Plans sheet: Customer ID, Standard Price,
Contracted Price, Discount %. -/
structure PricingRow where
  cust : ℕ
  standardPrice : ℚ
  contractedPrice : ℚ
  discountPct : ℚ
deriving DecidableEq

/-- total_rev — app2.py line 81: trans_data['Total Revenue'].sum(). -/
def totalRev (t : List TransRow) : ℚ := (t.map (·.revenue)).sum

/-- total_cust — app2.py line 82: cust_master['Customer ID'].nunique(). -/
def totalCust (m : List CustRow) : ℕ := (m.map (·.cust)).dedup.length

/-- One row of the derived cust_stats table (app2.py lines 88-92). -/
structure CustStat where
  cust : ℕ
  nTrans : ℕ
  totalRevenue : ℚ
  yieldPerTx : ℚ
deriving DecidableEq

/-- Sum of No. of Transactions over the transaction rows of one customer
(the groupby sum aggregation of app2.py line 89). -/
def custTransSum (t : List TransRow) (c : ℕ) : ℕ :=
  ((t.filter (fun r => decide (r.cust = c))).map (·.nTrans)).sum

/-- Sum of Total Revenue over the transaction rows of one customer
(the groupby sum aggregation of app2.py line 90). -/
def custRevSum (t : List TransRow) (c : ℕ) : ℚ :=
  ((t.filter (fun r => decide (r.cust = c))).map (·.revenue)).sum

/-- Group keys of trans_data.groupby('Customer ID'): the distinct Customer
IDs sorted ascending (pandas groupby sorts keys by default). -/
def custKeys (t : List TransRow) : List ℕ :=
  List.insertionSort (· ≤ ·) ((t.map (·.cust)).dedup)

/-- One aggregated cust_stats row for customer c, including the Yield
column of app2.py line 92: Total Revenue / No. of Transactions. -/
def mkCustStat (t : List TransRow) (c : ℕ) : CustStat :=
  ⟨c, custTransSum t c, custRevSum t c, custRevSum t c / (custTransSum t c : ℚ)⟩

/-- cust_stats — app2.py lines 88-92: per-customer sums of No. of
Transactions and Total Revenue plus the derived Yield column. -/
def cust_stats (t : List TransRow) : List CustStat :=
  (custKeys t).map (mkCustStat t)

/-- last_date — app2.py line 110: trans_data['Month'].max(). The getD 0
default is never exercised by the theorems, which assume nonempty data. -/
def lastMonth (t : List TransRow) : ℤ := ((t.map (·.month)).max?).getD 0

/-- active_cutoff — app2.py line 111: last_date - pd.DateOffset(months=2),
which on calendar-month indices is subtraction of 2. -/
def active_cutoff (t : List TransRow) : ℤ := lastMonth t - 2

/-- active_count — app2.py line 112: number of unique Customer IDs among
transaction rows with Month >= active_cutoff. -/
def active_count (t : List TransRow) : ℕ :=
  ((t.filter (fun r => decide (active_cutoff t ≤ r.month))).map (·.cust)).dedup.length

/-- Dormant Customers — app2.py line 118: total_cust - active_count,
evaluated in ℤ because the Python subtraction can go negative. -/
def dormant_count (m : List CustRow) (t : List TransRow) : ℤ :=
  (totalCust m : ℤ) - (active_count t : ℤ)

/-- Model of pandas sort_values by a rational key with ascending false.
pandas.core.sorting.nargsort reverses the values and the index array
before its stable ascending argsort and reverses the indexer afterwards,
so with a stable kernel (numpy insertion sort below 16 elements, or the
documented stable kinds) the result is the stable descending sort: rows
ordered by descending key with ties kept in input order.  A stable
insertion sort under the flipped relation computes exactly that. -/
def sortDescBy {α : Type} (f : α → ℚ) (l : List α) : List α :=
  List.insertionSort (fun a b => f b ≤ f a) l

/-- top_10 — app2.py line 193: cust_stats sorted by Total Revenue
descending, first 10 rows. -/
def top_10 (t : List TransRow) : List CustStat :=
  (sortDescBy (·.totalRevenue) (cust_stats t)).take 10

/-- top_10_share — app2.py line 194: revenue share of the top 10. -/
def top_10_share (t : List TransRow) : ℚ :=
  ((top_10 t).map (·.totalRevenue)).sum / totalRev t * 100

/-- Group keys of trans_data.groupby('Module Used'), sorted ascending. -/
def moduleKeys (t : List TransRow) : List ℕ :=
  List.insertionSort (· ≤ ·) ((t.map (·.moduleUsed)).dedup)

/-- Revenue summed over the transaction rows of one module. -/
def moduleRevSum (t : List TransRow) (m : ℕ) : ℚ :=
  ((t.filter (fun r => decide (r.moduleUsed = m))).map (·.revenue)).sum

/-- module_rev — app2.py line 211: revenue grouped by Module Used, sorted
descending by revenue. -/
def module_rev (t : List TransRow) : List (ℕ × ℚ) :=
  sortDescBy Prod.snd ((moduleKeys t).map (fun m => (m, moduleRevSum t m)))

/-- The five categories produced by the pd.cut call of app2.py lines
284-288, in the ascending bin order in which they are declared. -/
inductive DiscountBucket
  | d0to10
  | d10to20
  | d20to30
  | d30to40
  | d40plus
deriving DecidableEq

/-- The ordered category list of the pd.cut call: bins ascending. -/
def bucketList : List DiscountBucket :=
  [.d0to10, .d10to20, .d20to30, .d30to40, .d40plus]

/-- pd.cut with bins [0, 10, 20, 30, 40, 100] and the default right=True:
left-open right-closed intervals; values outside (0, 100] map to NaN,
modelled as none. -/
def cutBucket (d : ℚ) : Option DiscountBucket :=
  if 0 < d ∧ d ≤ 10 then some .d0to10
  else if 10 < d ∧ d ≤ 20 then some .d10to20
  else if 20 < d ∧ d ≤ 30 then some .d20to30
  else if 30 < d ∧ d ≤ 40 then some .d30to40
  else if 40 < d ∧ d ≤ 100 then some .d40plus
  else none

/-- discount_counts — app2.py lines 289-290: value_counts of the Discount
Range column sorted by category index ascending.  value_counts on a
categorical column reports every category (zero counts included) and
drops NaN; sort_index orders by the ascending category order. -/
def discount_counts (p : List PricingRow) : List (DiscountBucket × ℕ) :=
  bucketList.map (fun b =>
    (b, (p.filter (fun r => decide (cutBucket r.discountPct = some b))).length))

/-- pricing_merged — app2.py line 272: inner merge of Pricing Plans with
cust_stats on Customer ID.  cust_stats keys are unique, so each left row
matches at most one stats row; left row order is preserved. -/
def pricing_merged (p : List PricingRow) (t : List TransRow) :
    List (PricingRow × CustStat) :=
  p.filterMap (fun r =>
    ((cust_stats t).find? (fun cs => decide (cs.cust = r.cust))).map (fun cs => (r, cs)))

/-- rev_lost — app2.py lines 273-274: sum over merged rows of
(Standard Price - Contracted Price) * No. of Transactions. -/
def rev_lost (p : List PricingRow) (t : List TransRow) : ℚ :=
  ((pricing_merged p t).map (fun pr =>
    (pr.1.standardPrice - pr.1.contractedPrice) * (pr.2.nTrans : ℚ))).sum

/-- behavior — app2.py line 415: inner merge of Support Data with
cust_stats on Customer ID, preserving support row order. -/
structure BehaviorRow where
  support : SupportRow
  stats : CustStat
deriving DecidableEq

/-- The merged behavior table of app2.py line 415. -/
def behavior (s : List SupportRow) (t : List TransRow) : List BehaviorRow :=
  s.filterMap (fun r =>
    ((cust_stats t).find? (fun cs => decide (cs.cust = r.cust))).map (fun cs => ⟨r, cs⟩))

/-- Payment Loss column — app2.py line 487: Yield * Payment Failures. -/
def paymentLoss (br : BehaviorRow) : ℚ :=
  br.stats.yieldPerTx * (br.support.payFailures : ℚ)

/-- total_loss — app2.py line 488: sum of the Payment Loss column. -/
def total_loss (s : List SupportRow) (t : List TransRow) : ℚ :=
  ((behavior s t).map paymentLoss).sum

/-- top_losers — app2.py line 493: behavior.nlargest(15, 'Payment Loss'),
the 15 rows with the largest Payment Loss in descending order (pandas
documents nlargest as sort_values descending followed by head). -/
def top_losers (s : List SupportRow) (t : List TransRow) : List BehaviorRow :=
  (sortDescBy paymentLoss (behavior s t)).take 15

/-- adoption — app2.py lines 341-343: distinct customers per module over
total customers times 100, sorted descending. -/
def adoption (m : List CustRow) (t : List TransRow) : List (ℕ × ℚ) :=
  sortDescBy Prod.snd ((moduleKeys t).map (fun mo =>
    (mo, (((t.filter (fun r => decide (r.moduleUsed = mo))).map (·.cust)).dedup.length : ℚ)
          / (totalCust m : ℚ) * 100)))

/-- The loaded Pricing Plans table.  Beside its rows it records the
Discount Range column that app2.py line 284 assigns in place onto the
loaded dataframe; directly after load the column is absent (none). -/
structure PricingTable where
  rows : List PricingRow
  discountRangeCol : Option (List (Option DiscountBucket))
deriving DecidableEq

/-- The four tables produced by load_data (app2.py lines 52-61). -/
structure Tables where
  cust_master : List CustRow
  trans_data : List TransRow
  support_data : List SupportRow
  pricing_plans : PricingTable
deriving DecidableEq

/-- The five navigation labels of app2.py lines 73-76. -/
inductive ViewName
  | overview
  | revenueAnalysis
  | pricingDiscounts
  | productAdoption
  | behavioralInsights
deriving DecidableEq

/-- Values rendered by one view: the headline aggregates each section of
app2.py computes before handing them to chart and metric widgets. -/
inductive ViewOutput
  | overviewOut (totalCustN : ℕ) (activeN : ℕ) (dormantN : ℤ) (totalTransactions : ℕ)
  | revenueOut (totalR : ℚ) (avgRevenue : ℚ) (avgTransaction : ℚ)
      (topTen : List CustStat) (share : ℚ) (moduleRevenue : List (ℕ × ℚ))
  | pricingOut (avgStd : ℚ) (avgContracted : ℚ) (gap : ℚ) (leakage : ℚ)
      (counts : List (DiscountBucket × ℕ))
  | adoptionOut (rates : List (ℕ × ℚ))
  | behavioralOut (totalTickets : ℕ) (totalFailed : ℕ) (totalLoss : ℚ)
      (losers : List BehaviorRow)

/-- Rendering one view: the aggregation-then-render body of the selected
branch of app2.py lines 97-522.  It returns the table state after the
view ran together with the view's rendered aggregates; only the Pricing
and Discounts branch writes to a loaded table (line 284 adds the
Discount Range column to pricing_plans in place). -/
def renderView (sel : ViewName) (tb : Tables) : Tables × ViewOutput :=
  match sel with
  | .overview =>
      (tb, .overviewOut (totalCust tb.cust_master) (active_count tb.trans_data)
        (dormant_count tb.cust_master tb.trans_data)
        ((tb.trans_data.map (·.nTrans)).sum))
  | .revenueAnalysis =>
      (tb, .revenueOut (totalRev tb.trans_data)
        (totalRev tb.trans_data / (totalCust tb.cust_master : ℚ))
        (totalRev tb.trans_data / ((tb.trans_data.map (·.nTrans)).sum : ℚ))
        (top_10 tb.trans_data) (top_10_share tb.trans_data) (module_rev tb.trans_data))
  | .pricingDiscounts =>
      ({ tb with pricing_plans :=
          { rows := tb.pricing_plans.rows
            discountRangeCol :=
              some (tb.pricing_plans.rows.map (fun r => cutBucket r.discountPct)) } },
       .pricingOut
        ((tb.pricing_plans.rows.map (·.standardPrice)).sum / (tb.pricing_plans.rows.length : ℚ))
        ((tb.pricing_plans.rows.map (·.contractedPrice)).sum / (tb.pricing_plans.rows.length : ℚ))
        ((tb.pricing_plans.rows.map (·.standardPrice)).sum / (tb.pricing_plans.rows.length : ℚ)
          - (tb.pricing_plans.rows.map (·.contractedPrice)).sum / (tb.pricing_plans.rows.length : ℚ))
        (rev_lost tb.pricing_plans.rows tb.trans_data)
        (discount_counts tb.pricing_plans.rows))
  | .productAdoption =>
      (tb, .adoptionOut (adoption tb.cust_master tb.trans_data))
  | .behavioralInsights =>
      (tb, .behavioralOut ((tb.support_data.map (·.tickets)).sum)
        ((tb.support_data.map (·.failedTrans)).sum)
        (total_loss tb.support_data tb.trans_data)
        (top_losers tb.support_data tb.trans_data))

/-- Outcome of one script run: either the fatal load-failure branch of
app2.py lines 63-67 (st.error followed by st.stop, so nothing below it
executes), or a rendered page with the always-visible sidebar quick
stats and the selected view's output. -/
inductive AppOutput
  | fatalError (msg : ℕ)
  | page (quickRevenue : ℚ) (quickCustomers : ℕ) (view : ViewOutput)

/-- Whether a run ended on the fatal load-failure branch. -/
def AppOutput.isFatal : AppOutput → Prop
  | .fatalError _ => True
  | .page _ _ _ => False

/-- The view a run rendered, if any. -/
def AppOutput.renderedView : AppOutput → Option ViewOutput
  | .fatalError _ => none
  | .page _ _ v => some v

/-- One full script run — app2.py top to bottom: the try/except around
load_data, then sidebar quick stats and the selected view.  Error
messages are modelled as naturals, as only their presence matters. -/
def runApp (load : Except ℕ Tables) (sel : ViewName) : AppOutput :=
  match load with
  | .error e => .fatalError e
  | .ok tb => .page (totalRev tb.trans_data) (totalCust tb.cust_master)
      (renderView sel tb).2

/-- Modelled from the claim wording of C1: bucketing by the five
half-open ranges with 0 included in the first bucket and each boundary in
the upper bucket, the last interval closed at 100. -/
def specBucketClosedLeft (d : ℚ) : Option DiscountBucket :=
  if 0 ≤ d ∧ d < 10 then some .d0to10
  else if 10 ≤ d ∧ d < 20 then some .d10to20
  else if 20 ≤ d ∧ d < 30 then some .d20to30
  else if 30 ≤ d ∧ d < 40 then some .d30to40
  else if 40 ≤ d ∧ d ≤ 100 then some .d40plus
  else none

/-- Modelled from the claim wording of C1: the per-bucket counts under
the half-open [0,10) style ranges, ascending. -/
def spec_discount_counts (p : List PricingRow) : List (DiscountBucket × ℕ) :=
  bucketList.map (fun b =>
    (b, (p.filter (fun r => decide (specBucketClosedLeft r.discountPct = some b))).length))

/-- Modelled from the claim wording of C2: distinct customers with a
transaction row in the 2 full calendar months up to and including the
latest month, i.e. Month at least lastMonth - 1. -/
def spec_active_two_months (t : List TransRow) : ℕ :=
  ((t.filter (fun r => decide (lastMonth t - 1 ≤ r.month))).map (·.cust)).dedup.length

theorem sum_map_ones {α : Type} (l : List α) : (l.map (fun _ => (1 : ℕ))).sum = l.length := by
  induction l with
  | nil => rfl
  | cons a l ih => simp only [List.map_cons, List.sum_cons, List.length_cons, ih]; omega

theorem sum_map_add_pointwise {κ M : Type} [AddCommMonoid M] (ks : List κ) (f g : κ → M) :
    (ks.map (fun k => f k + g k)).sum = (ks.map f).sum + (ks.map g).sum := by
  induction ks with
  | nil => simp
  | cons k ks ih =>
      simp only [List.map_cons, List.sum_cons, ih]
      rw [add_add_add_comm]

theorem sum_map_ite_zero {κ M : Type} [DecidableEq κ] [AddCommMonoid M]
    (ks : List κ) (k0 : κ) (c : M) (hk : k0 ∉ ks) :
    (ks.map (fun k => if k = k0 then c else 0)).sum = 0 := by
  induction ks with
  | nil => rfl
  | cons k ks ih =>
      simp only [List.mem_cons, not_or] at hk
      rw [List.map_cons, List.sum_cons, if_neg (fun h => hk.1 h.symm), ih hk.2, zero_add]

theorem sum_map_ite_single {κ M : Type} [DecidableEq κ] [AddCommMonoid M]
    (ks : List κ) (k0 : κ) (c : M) (hnd : ks.Nodup) (hk : k0 ∈ ks) :
    (ks.map (fun k => if k = k0 then c else 0)).sum = c := by
  induction ks with
  | nil => cases hk
  | cons k ks ih =>
      obtain ⟨hknot, hnd'⟩ := List.nodup_cons.mp hnd
      rcases List.mem_cons.mp hk with h | h
      · rw [List.map_cons, List.sum_cons, if_pos h.symm,
          sum_map_ite_zero ks k0 c (h ▸ hknot), add_zero]
      · have hne : k ≠ k0 := fun he => hknot (he ▸ h)
        rw [List.map_cons, List.sum_cons, if_neg hne, ih hnd' h, zero_add]

/-- A grouped aggregation over a duplicate-free key list covering every
row recovers the ungrouped total: the groups partition the rows. -/
theorem sum_fiberwise {α κ M : Type} [DecidableEq κ] [AddCommMonoid M]
    (l : List α) (key : α → κ) (val : α → M) (ks : List κ) (hnd : ks.Nodup)
    (hmem : ∀ a ∈ l, key a ∈ ks) :
    (ks.map (fun k => ((l.filter (fun a => decide (key a = k))).map val).sum)).sum
      = (l.map val).sum := by
  induction l with
  | nil => simp
  | cons a l ih =>
      have h1 : ∀ k : κ,
          (((a :: l).filter (fun x => decide (key x = k))).map val).sum
            = (if k = key a then val a else 0)
              + ((l.filter (fun x => decide (key x = k))).map val).sum := by
        intro k
        rw [List.filter_cons]
        by_cases h : key a = k
        · simp [h]
        · have hne : k ≠ key a := fun he => h he.symm
          simp [h, if_neg hne]
      have h2 :
          (ks.map (fun k => (((a :: l).filter (fun x => decide (key x = k))).map val).sum)).sum
            = (ks.map (fun k => (if k = key a then val a else 0)
                + ((l.filter (fun x => decide (key x = k))).map val).sum)).sum := by
        congr 1
        exact List.map_congr_left (fun k _ => h1 k)
      rw [h2, sum_map_add_pointwise,
        sum_map_ite_single ks (key a) (val a) hnd (hmem a (List.mem_cons_self a l)),
        ih (fun x hx => hmem x (List.mem_cons_of_mem a hx)),
        List.map_cons, List.sum_cons]

theorem mem_custKeys (t : List TransRow) (c : ℕ) :
    c ∈ custKeys t ↔ c ∈ t.map (·.cust) := by
  rw [custKeys, List.mem_insertionSort, List.mem_dedup]

theorem custKeys_nodup (t : List TransRow) : (custKeys t).Nodup :=
  ((List.perm_insertionSort _ _).nodup_iff).mpr (List.nodup_dedup _)

theorem moduleKeys_nodup (t : List TransRow) : (moduleKeys t).Nodup :=
  ((List.perm_insertionSort _ _).nodup_iff).mpr (List.nodup_dedup _)

theorem mem_moduleKeys (t : List TransRow) (m : ℕ) :
    m ∈ moduleKeys t ↔ m ∈ t.map (·.moduleUsed) := by
  rw [moduleKeys, List.mem_insertionSort, List.mem_dedup]

theorem mkCustStat_cust (t : List TransRow) (c : ℕ) : (mkCustStat t c).cust = c := rfl

theorem find?_map_mkCustStat (t : List TransRow) (ks : List ℕ) (c : ℕ) :
    ((ks.map (mkCustStat t)).find? (fun cs => decide (cs.cust = c)))
      = if c ∈ ks then some (mkCustStat t c) else none := by
  induction ks with
  | nil => simp
  | cons k ks ih =>
      rw [List.map_cons]
      by_cases h : k = c
      · subst h
        rw [List.find?_cons_of_pos _ (by simp [mkCustStat]), if_pos (List.mem_cons_self k ks)]
      · rw [List.find?_cons_of_neg _ (by simp [mkCustStat, h]), ih]
        by_cases hc : c ∈ ks
        · rw [if_pos hc, if_pos (List.mem_cons_of_mem k hc)]
        · rw [if_neg hc, if_neg (fun hm => by
            rcases List.mem_cons.mp hm with he | hm2
            · exact h he.symm
            · exact hc hm2)]

theorem cust_stats_find? (t : List TransRow) (c : ℕ) :
    ((cust_stats t).find? (fun cs => decide (cs.cust = c)))
      = if c ∈ t.map (·.cust) then some (mkCustStat t c) else none := by
  rw [cust_stats, find?_map_mkCustStat]
  by_cases h : c ∈ t.map (·.cust)
  · rw [if_pos ((mem_custKeys t c).mpr h), if_pos h]
  · rw [if_neg (fun hc => h ((mem_custKeys t c).mp hc)), if_neg h]

theorem mem_cust_stats (t : List TransRow) (cs : CustStat) :
    cs ∈ cust_stats t ↔ ∃ c, c ∈ t.map (·.cust) ∧ cs = mkCustStat t c := by
  rw [cust_stats, List.mem_map]
  constructor
  · rintro ⟨c, hc, rfl⟩
    exact ⟨c, (mem_custKeys t c).mp hc, rfl⟩
  · rintro ⟨c, hc, rfl⟩
    exact ⟨c, (mem_custKeys t c).mpr hc, rfl⟩

theorem cust_stats_map_cust (t : List TransRow) :
    (cust_stats t).map (·.cust) = custKeys t := by
  rw [cust_stats, List.map_map]
  exact (List.map_congr_left (fun c _ => mkCustStat_cust t c)).trans (List.map_id _)

theorem custTransSum_pos (t : List TransRow) (c : ℕ)
    (hpos : ∀ r ∈ t, 0 < r.nTrans) (hc : c ∈ t.map (·.cust)) :
    0 < custTransSum t c := by
  rcases List.mem_map.mp hc with ⟨r, hr, hrc⟩
  have hrf : r ∈ t.filter (fun x => decide (x.cust = c)) :=
    List.mem_filter.mpr ⟨hr, by simp [hrc]⟩
  have hmem : r.nTrans ∈ (t.filter (fun x => decide (x.cust = c))).map (·.nTrans) :=
    List.mem_map_of_mem _ hrf
  exact lt_of_lt_of_le (hpos r hr)
    (List.single_le_sum (fun x _ => Nat.zero_le x) _ hmem)

theorem sortDescBy_pairwise {α : Type} (f : α → ℚ) (l : List α) :
    (sortDescBy f l).Pairwise (fun a b => f b ≤ f a) := by
  rw [sortDescBy]
  haveI : IsTotal α (fun a b => f b ≤ f a) := ⟨fun a b => le_total (f b) (f a)⟩
  haveI : IsTrans α (fun a b => f b ≤ f a) := ⟨fun _ _ _ hab hbc => le_trans hbc hab⟩
  exact List.sorted_insertionSort _ l

theorem sortDescBy_perm {α : Type} (f : α → ℚ) (l : List α) :
    List.Perm (sortDescBy f l) l :=
  List.perm_insertionSort _ l

theorem orderedInsert_desc_filter {α : Type} (f : α → ℚ) (q : ℚ) (a : α) (s : List α) :
    (List.orderedInsert (fun x y => f y ≤ f x) a s).filter (fun x => decide (f x = q))
      = if f a = q then a :: s.filter (fun x => decide (f x = q))
        else s.filter (fun x => decide (f x = q)) := by
  induction s with
  | nil =>
      by_cases ha : f a = q
      · rw [if_pos ha]
        simp [List.orderedInsert, ha]
      · rw [if_neg ha]
        simp [List.orderedInsert, ha]
  | cons b s ih =>
      simp only [List.orderedInsert]
      by_cases hr : f b ≤ f a
      · rw [if_pos hr]
        by_cases ha : f a = q
        · rw [if_pos ha, List.filter_cons, List.filter_cons]
          simp [ha]
        · rw [if_neg ha, List.filter_cons, List.filter_cons]
          simp [ha]
      · rw [if_neg hr, List.filter_cons, List.filter_cons]
        have hlt : f a < f b := lt_of_not_le hr
        by_cases ha : f a = q
        · have hbq : ¬ f b = q := fun hb => absurd (ha.trans hb.symm) (ne_of_lt hlt)
          rw [if_pos ha] at ih ⊢
          simp [hbq, ih]
        · rw [if_neg ha] at ih ⊢
          by_cases hb : f b = q
          · simp [hb, ih]
          · simp [hb, ih]

/-- Stability of the descending sort: for every key value, the rows
carrying that value appear in the sorted output in their input order —
this is the tie-break-by-input-order property of a stable sort. -/
theorem sortDescBy_filter_eq {α : Type} (f : α → ℚ) (q : ℚ) (l : List α) :
    (sortDescBy f l).filter (fun x => decide (f x = q))
      = l.filter (fun x => decide (f x = q)) := by
  rw [sortDescBy]
  induction l with
  | nil => rfl
  | cons a l ih =>
      simp only [List.insertionSort]
      rw [orderedInsert_desc_filter, ih, List.filter_cons]
      by_cases ha : f a = q
      · rw [if_pos ha]
        simp [ha]
      · rw [if_neg ha]
        simp [ha]

theorem foldl_max_spec (l : List ℤ) (a : ℤ) :
    (l.foldl max a = a ∨ l.foldl max a ∈ l)
      ∧ a ≤ l.foldl max a ∧ ∀ x ∈ l, x ≤ l.foldl max a := by
  induction l generalizing a with
  | nil => simp
  | cons b l ih =>
      obtain ⟨hmem, hle, hall⟩ := ih (max a b)
      rw [List.foldl_cons]
      refine ⟨?_, le_trans (le_max_left a b) hle, ?_⟩
      · rcases hmem with h | h
        · rcases max_choice a b with hc | hc
          · left; rw [h, hc]
          · right; rw [h, hc]; exact List.mem_cons_self b l
        · exact Or.inr (List.mem_cons_of_mem b h)
      · intro x hx
        rcases List.mem_cons.mp hx with rfl | hx
        · exact le_trans (le_max_right a x) hle
        · exact hall x hx

theorem lastMonth_spec (t : List TransRow) (h : t ≠ []) :
    (∃ r ∈ t, r.month = lastMonth t) ∧ ∀ r ∈ t, r.month ≤ lastMonth t := by
  cases t with
  | nil => exact absurd rfl h
  | cons r0 rs =>
      have hL : lastMonth (r0 :: rs) = (rs.map (·.month)).foldl max r0.month := rfl
      obtain ⟨hmem, hle, hall⟩ := foldl_max_spec (rs.map (·.month)) r0.month
      constructor
      · rcases hmem with hm | hm
        · exact ⟨r0, List.mem_cons_self r0 rs, by rw [hL, hm]⟩
        · rcases List.mem_map.mp hm with ⟨r, hr, hrm⟩
          exact ⟨r, List.mem_cons_of_mem r0 hr, by rw [hL, hrm]⟩
      · intro r hr
        rcases List.mem_cons.mp hr with rfl | hr
        · rw [hL]; exact hle
        · rw [hL]; exact hall r.month (List.mem_map_of_mem _ hr)

/-- Pricing input with a single row whose Discount % is exactly 0. -/
def pC1 : List PricingRow := [⟨1, 100, 90, 0⟩]

/-- Pricing input with all discounts strictly inside (0, 100]. -/
def pW1 : List PricingRow := [⟨1, 100, 90, 5⟩, ⟨2, 100, 80, 25⟩]

/-- Transaction input whose months are 0 and 2: month 0 lies three
calendar months back from the latest month 2. -/
def tC2 : List TransRow := [⟨1, 0, 0, 1, 10⟩, ⟨2, 2, 0, 1, 10⟩]

/-- Transaction input with a row whose No. of Transactions is 0. -/
def tC3 : List TransRow := [⟨1, 0, 0, 0, 5⟩]

/-- The worked example of the spec: customer 1 has 5 transactions for 500
in month 0 on module 0 and 3 transactions for 300 in month 1 on module 1;
customer 2 has 2 transactions for 100. -/
def tW3 : List TransRow := [⟨1, 0, 0, 5, 500⟩, ⟨1, 1, 1, 3, 300⟩, ⟨2, 0, 0, 2, 100⟩]

/-- Eleven customers with one transaction row each; customers 0 and 1 tie
at revenue 100 and the rest descend from 90 to 50. -/
def tC5 : List TransRow :=
  [⟨0, 0, 0, 1, 100⟩, ⟨1, 0, 0, 1, 100⟩, ⟨2, 0, 0, 1, 90⟩, ⟨3, 0, 0, 1, 85⟩,
   ⟨4, 0, 0, 1, 80⟩, ⟨5, 0, 0, 1, 75⟩, ⟨6, 0, 0, 1, 70⟩, ⟨7, 0, 0, 1, 65⟩,
   ⟨8, 0, 0, 1, 60⟩, ⟨9, 0, 0, 1, 55⟩, ⟨10, 0, 0, 1, 50⟩]

/-- The leakage example of the spec: Standard 120, Contracted 100. -/
def pC6 : List PricingRow := [⟨1, 120, 100, 5⟩]

/-- Transaction rows giving customer 1 a total of 8 transactions. -/
def tC6 : List TransRow := [⟨1, 0, 0, 5, 500⟩, ⟨1, 1, 1, 3, 300⟩]

/-- Support input whose first customer has zero Payment Failures. -/
def sW7 : List SupportRow := [⟨1, 2, 1, 4, 0⟩, ⟨2, 1, 0, 2, 3⟩]

/-- Transaction input giving customers 1 and 2 nonzero yields. -/
def tW7 : List TransRow := [⟨1, 0, 0, 2, 100⟩, ⟨2, 0, 0, 4, 100⟩]

/-- Customer Master containing only customer 7. -/
def mC10 : List CustRow := [⟨7, 0, 0⟩]

/-- Transaction rows for customers 5 and 6, absent from mC10. -/
def tC10 : List TransRow := [⟨5, 0, 0, 1, 10⟩, ⟨6, 0, 0, 1, 10⟩]

/-- A small loaded state used for the view-rendering theorems. -/
def tb0 : Tables :=
  ⟨[⟨1, 0, 0⟩], [⟨1, 0, 0, 1, 10⟩], [⟨1, 1, 0, 1, 0⟩], ⟨[⟨1, 100, 90, 5⟩], none⟩⟩

/-- Claim C8 (confirmed): the per-module revenues of the Revenue Analysis
grouping sum to the global total revenue for every Transaction Data
input — grouping by Module Used partitions the transaction rows. -/
theorem module_revenue_sums_to_total (t : List TransRow) :
    ((module_rev t).map Prod.snd).sum = totalRev t := by
  have hperm :
      List.Perm ((module_rev t).map Prod.snd)
        ((((moduleKeys t).map (fun m => (m, moduleRevSum t m))).map Prod.snd)) :=
    (sortDescBy_perm Prod.snd _).map Prod.snd
  rw [hperm.sum_eq, List.map_map]
  have : (Prod.snd ∘ fun m => (m, moduleRevSum t m)) = moduleRevSum t := rfl
  rw [this]
  exact sum_fiberwise t (·.moduleUsed) (·.revenue) (moduleKeys t) (moduleKeys_nodup t)
    (fun r hr => (mem_moduleKeys t r.moduleUsed).mpr (List.mem_map_of_mem _ hr))

/-- Claim C9 (confirmed): when the load fails the run is the fatal error
output and no view is rendered; when the load succeeds the run is never
fatal and renders exactly the selected view over the loaded tables,
together with the sidebar quick stats. -/
theorem load_failure_fatal_no_view :
    (∀ (e : ℕ) (sel : ViewName),
      (runApp (.error e) sel).isFatal ∧ (runApp (.error e) sel).renderedView = none) ∧
    (∀ (tb : Tables) (sel : ViewName),
      ¬ (runApp (.ok tb) sel).isFatal ∧
      (runApp (.ok tb) sel).renderedView = some (renderView sel tb).2) :=
  ⟨fun _ _ => ⟨trivial, rfl⟩, fun _ _ => ⟨fun h => h, rfl⟩⟩

/-- Claim C10 (confirmed): active_count reads only Transaction Data (its
argument list — Customer Master is not consulted), so on an input whose
transacting customers are absent from Customer Master the Active count
exceeds Total Customers and the displayed Dormant value is negative. -/
theorem active_exceeds_total_negative_dormant :
    totalCust mC10 < active_count tC10 ∧
    dormant_count mC10 tC10 = -1 ∧ dormant_count mC10 tC10 < 0 := by decide

theorem cutBucket_total (d : ℚ) (h0 : 0 < d) (h100 : d ≤ 100) :
    cutBucket d ∈ bucketList.map some := by
  rw [cutBucket]
  split_ifs with h1 h2 h3 h4 h5
  · simp [bucketList]
  · simp [bucketList]
  · simp [bucketList]
  · simp [bucketList]
  · simp [bucketList]
  · push_neg at h1 h2 h3 h4
    exact absurd (⟨h4 (h3 (h2 (h1 h0))), h100⟩ : 40 < d ∧ d ≤ 100) h5

/-- Claim C1 (corrected), counterexample: pd.cut with right=True uses
left-open right-closed bins, so a Discount % of exactly 0 (which lies in
the claimed range [0,100] and in the claimed bucket [0,10)) falls in no
bucket and the five counts sum to 0 while the table has 1 row.  Boundary
value 10 likewise lands in the first code bucket, not the claimed second
one. -/
theorem discount_bucket_claim_false :
    ((discount_counts pC1).map Prod.snd).sum = 0 ∧ pC1.length = 1 ∧
    ((discount_counts pC1).map Prod.snd).sum ≠ pC1.length ∧
    cutBucket 0 = none ∧ specBucketClosedLeft 0 = some .d0to10 ∧
    cutBucket 10 = some .d0to10 ∧ specBucketClosedLeft 10 = some .d10to20 := by decide

/-- Claim C1 (corrected), amended: Discount % is bucketed into the five
left-open right-closed ranges (0,10], (10,20], (20,30], (30,40], (40,100]
(pd.cut default right=True), the counts are reported in ascending bucket
order, and for every Pricing Plans input whose Discount % values all lie
in (0,100] each row falls in exactly one bucket and the five counts sum
to the number of rows. -/
theorem discount_buckets_partition (p : List PricingRow)
    (h : ∀ r ∈ p, 0 < r.discountPct ∧ r.discountPct ≤ 100) :
    (discount_counts p).map Prod.fst = bucketList ∧
    (∀ r ∈ p, (cutBucket r.discountPct).isSome) ∧
    ((discount_counts p).map Prod.snd).sum = p.length := by
  refine ⟨?_, ?_, ?_⟩
  · rw [discount_counts, List.map_map]
    exact (List.map_congr_left (fun b _ => rfl)).trans (List.map_id _)
  · intro r hr
    rcases List.mem_map.mp (cutBucket_total r.discountPct (h r hr).1 (h r hr).2) with
      ⟨b, _, hb⟩
    rw [← hb]
    rfl
  · have key := sum_fiberwise p (fun r => cutBucket r.discountPct) (fun _ => (1 : ℕ))
      (bucketList.map some) (by decide)
      (fun r hr => cutBucket_total r.discountPct (h r hr).1 (h r hr).2)
    rw [sum_map_ones, List.map_map] at key
    rw [discount_counts, List.map_map, ← key]
    congr 1
    exact List.map_congr_left (fun b _ => (sum_map_ones _).symm)

/-- Witness for discount_buckets_partition at a concrete pricing table. -/
theorem discount_buckets_partition_witness :
    (∀ r ∈ pW1, 0 < r.discountPct ∧ r.discountPct ≤ 100) ∧
    ((discount_counts pW1).map Prod.fst = bucketList ∧
     (∀ r ∈ pW1, (cutBucket r.discountPct).isSome) ∧
     ((discount_counts pW1).map Prod.snd).sum = pW1.length) :=
  ⟨by decide, discount_buckets_partition pW1 (by decide)⟩

/-- Claim C2 (corrected), counterexample: cutoff is the latest month
minus a 2-month offset with an inclusive comparison, so the window spans
three calendar months.  On months 0 and 2 the code counts the month-0
customer as active (0 is at least 2 - 2) while the claimed 2-month window
contains only months 1 and 2. -/
theorem active_window_claim_false :
    tC2 ≠ [] ∧ active_count tC2 = 2 ∧ spec_active_two_months tC2 = 1 ∧
    active_count tC2 ≠ spec_active_two_months tC2 := by decide

/-- Claim C2 (corrected), amended: for every non-empty Transaction Data
table, lastMonth is the latest Month present, Active Customers counts the
distinct Customer IDs with at least one row whose Month lies within the 3
full calendar months up to and including the latest Month (Month at least
lastMonth - 2, the code's inclusive 2-month date offset), and Dormant
Customers equals total customers minus that active count. -/
theorem active_count_three_month_window (t : List TransRow) (h : t ≠ []) :
    (∃ r ∈ t, r.month = lastMonth t) ∧ (∀ r ∈ t, r.month ≤ lastMonth t) ∧
    active_count t = ((t.map (·.cust)).toFinset.filter
      (fun c => ∃ r ∈ t, r.cust = c ∧ lastMonth t - 2 ≤ r.month)).card ∧
    (∀ m : List CustRow, dormant_count m t = (totalCust m : ℤ) - (active_count t : ℤ)) := by
  obtain ⟨hex, hub⟩ := lastMonth_spec t h
  refine ⟨hex, hub, ?_, fun m => rfl⟩
  have h3 : ((t.filter (fun r => decide (active_cutoff t ≤ r.month))).map (·.cust)).toFinset
      = (t.map (·.cust)).toFinset.filter
          (fun c => ∃ r ∈ t, r.cust = c ∧ lastMonth t - 2 ≤ r.month) := by
    ext c
    simp only [List.mem_toFinset, Finset.mem_filter, List.mem_map, List.mem_filter,
      decide_eq_true_eq, active_cutoff]
    constructor
    · rintro ⟨r, ⟨hr, hm⟩, rfl⟩
      exact ⟨⟨r, hr, rfl⟩, r, hr, rfl, hm⟩
    · rintro ⟨_, r, hr, rfl, hm⟩
      exact ⟨r, ⟨hr, hm⟩, rfl⟩
  rw [active_count, ← List.card_toFinset, h3]

/-- Witness for active_count_three_month_window at a concrete table. -/
theorem active_count_three_month_window_witness :
    tC2 ≠ [] ∧
    ((∃ r ∈ tC2, r.month = lastMonth tC2) ∧ (∀ r ∈ tC2, r.month ≤ lastMonth tC2) ∧
     active_count tC2 = ((tC2.map (·.cust)).toFinset.filter
       (fun c => ∃ r ∈ tC2, r.cust = c ∧ lastMonth tC2 - 2 ≤ r.month)).card ∧
     (∀ m : List CustRow, dormant_count m tC2 = (totalCust m : ℤ) - (active_count tC2 : ℤ))) :=
  ⟨by decide, active_count_three_month_window tC2 (by decide)⟩

/-- Claim C3 (corrected), counterexample: a Transaction Data row may
carry a No. of Transactions of 0; its customer then appears in Customer
Stats with a summed transaction count of 0, so the Yield division has a
zero denominator — nothing in the construction prevents it. -/
theorem cust_stats_zero_denominator :
    tC3 ≠ [] ∧ (cust_stats tC3).map (fun cs => cs.nTrans) = [0] ∧
    custTransSum tC3 1 = 0 := by decide

/-- Claim C3 (corrected), amended: for every load, the Customer Stats
Customer ID set equals the set of distinct Customer IDs in Transaction
Data and each row's Yield equals its summed Total Revenue divided by its
summed No. of Transactions; when every transaction row has a positive
No. of Transactions the divisor is positive by construction — but a
zero-count row defeats that, so positivity of row counts is required. -/
theorem cust_stats_characterization (t : List TransRow)
    (hpos : ∀ r ∈ t, 0 < r.nTrans) :
    ((cust_stats t).map (fun cs => cs.cust)).toFinset = (t.map (·.cust)).toFinset ∧
    (∀ cs ∈ cust_stats t, cs.nTrans = custTransSum t cs.cust ∧
      cs.totalRevenue = custRevSum t cs.cust ∧
      cs.yieldPerTx = cs.totalRevenue / (cs.nTrans : ℚ)) ∧
    (∀ cs ∈ cust_stats t, 0 < cs.nTrans) := by
  refine ⟨?_, ?_, ?_⟩
  · rw [cust_stats_map_cust]
    ext c
    simp [mem_custKeys]
  · intro cs hcs
    rcases (mem_cust_stats t cs).mp hcs with ⟨c, _, rfl⟩
    exact ⟨rfl, rfl, rfl⟩
  · intro cs hcs
    rcases (mem_cust_stats t cs).mp hcs with ⟨c, hc, rfl⟩
    exact custTransSum_pos t c hpos hc

/-- Witness for cust_stats_characterization at the spec's worked
example (customer 1: 8 transactions and revenue 800; customer 2: 2
transactions and revenue 100). -/
theorem cust_stats_characterization_witness :
    (∀ r ∈ tW3, 0 < r.nTrans) ∧
    (((cust_stats tW3).map (fun cs => cs.cust)).toFinset = (tW3.map (·.cust)).toFinset ∧
     (∀ cs ∈ cust_stats tW3, cs.nTrans = custTransSum tW3 cs.cust ∧
       cs.totalRevenue = custRevSum tW3 cs.cust ∧
       cs.yieldPerTx = cs.totalRevenue / (cs.nTrans : ℚ)) ∧
     (∀ cs ∈ cust_stats tW3, 0 < cs.nTrans)) :=
  ⟨by decide, cust_stats_characterization tW3 (by decide)⟩

/-- Claim C4 (corrected), counterexample: rendering the Pricing and
Discounts view assigns the derived Discount Range column onto the loaded
pricing_plans dataframe in place (app2.py line 284), so the loaded table
is not left unchanged. -/
theorem pricing_view_mutates_loaded_table :
    tb0.pricing_plans.discountRangeCol = none ∧
    (renderView .pricingDiscounts tb0).1.pricing_plans.discountRangeCol ≠ none ∧
    (renderView .pricingDiscounts tb0).1 ≠ tb0 := by decide

/-- Claim C4 (corrected), amended: no view changes any loaded column
value — the four tables' original rows survive every view untouched, and
the four views other than Pricing and Discounts leave the loaded state
entirely unchanged — but the Pricing and Discounts view adds the derived
Discount Range column to the loaded Pricing Plans table in place. -/
theorem views_preserve_loaded_values (tb : Tables) (sel : ViewName) :
    (renderView sel tb).1.cust_master = tb.cust_master ∧
    (renderView sel tb).1.trans_data = tb.trans_data ∧
    (renderView sel tb).1.support_data = tb.support_data ∧
    (renderView sel tb).1.pricing_plans.rows = tb.pricing_plans.rows ∧
    (sel ≠ .pricingDiscounts → (renderView sel tb).1 = tb) ∧
    (sel = .pricingDiscounts → (renderView sel tb).1.pricing_plans.discountRangeCol
      = some (tb.pricing_plans.rows.map (fun r => cutBucket r.discountPct))) := by
  cases sel <;> simp [renderView]

/-- Witness for views_preserve_loaded_values at a concrete state,
discharging both inner implications. -/
theorem views_preserve_loaded_values_witness :
    (renderView .overview tb0).1 = tb0 ∧
    (renderView .pricingDiscounts tb0).1.pricing_plans.discountRangeCol
      = some (tb0.pricing_plans.rows.map (fun r => cutBucket r.discountPct)) :=
  ⟨(views_preserve_loaded_values tb0 .overview).2.2.2.2.1 (by decide),
   (views_preserve_loaded_values tb0 .pricingDiscounts).2.2.2.2.2 rfl⟩

/-- Claim C5 (confirmed): for every input with at least 10 customers the
top-10 list has exactly 10 rows, is ordered by Total Revenue descending,
breaks ties by input order (pandas sort_values descending reverses both
the data and the indexer around a stable ascending argsort, so with a
stable kernel equal revenues keep the Customer Stats table order — here
stated as the sort commuting with the restriction to any fixed revenue
value), every excluded customer's revenue is at most every included
one's, the kept and dropped rows together are exactly Customer Stats,
and the displayed share equals the top-10 summed revenue divided by the
global total revenue times 100. -/
theorem top10_desc_and_share (t : List TransRow)
    (h10 : 10 ≤ (cust_stats t).length) :
    (top_10 t).length = 10 ∧
    (top_10 t).Pairwise (fun a b => b.totalRevenue ≤ a.totalRevenue) ∧
    (∀ q : ℚ, (sortDescBy (·.totalRevenue) (cust_stats t)).filter
        (fun cs => decide (cs.totalRevenue = q))
      = (cust_stats t).filter (fun cs => decide (cs.totalRevenue = q))) ∧
    (∀ a ∈ top_10 t, ∀ b ∈ (sortDescBy (·.totalRevenue) (cust_stats t)).drop 10,
      b.totalRevenue ≤ a.totalRevenue) ∧
    List.Perm (top_10 t ++ (sortDescBy (·.totalRevenue) (cust_stats t)).drop 10)
      (cust_stats t) ∧
    top_10_share t = ((top_10 t).map (·.totalRevenue)).sum / totalRev t * 100 := by
  have hlen : (sortDescBy (·.totalRevenue) (cust_stats t)).length = (cust_stats t).length :=
    (sortDescBy_perm _ _).length_eq
  have hp := sortDescBy_pairwise (·.totalRevenue) (cust_stats t)
  refine ⟨?_, hp.sublist (List.take_sublist _ _),
    fun q => sortDescBy_filter_eq (·.totalRevenue) q (cust_stats t), ?_, ?_, rfl⟩
  · rw [top_10, List.length_take, hlen]
    exact Nat.min_eq_left h10
  · have hsplit := List.pairwise_append.mp
      (by rw [List.take_append_drop]; exact hp :
        ((sortDescBy (·.totalRevenue) (cust_stats t)).take 10
          ++ (sortDescBy (·.totalRevenue) (cust_stats t)).drop 10).Pairwise
            (fun a b => b.totalRevenue ≤ a.totalRevenue))
    exact fun a ha b hb => hsplit.2.2 a ha b hb
  · rw [top_10, List.take_append_drop]
    exact sortDescBy_perm _ _

/-- Witness for top10_desc_and_share at the 11-customer table, where the
tied customers 0 and 1 head the list in input order. -/
theorem top10_desc_and_share_witness :
    10 ≤ (cust_stats tC5).length ∧
    ((top_10 tC5).length = 10 ∧
     (top_10 tC5).Pairwise (fun a b => b.totalRevenue ≤ a.totalRevenue) ∧
     (∀ q : ℚ, (sortDescBy (·.totalRevenue) (cust_stats tC5)).filter
         (fun cs => decide (cs.totalRevenue = q))
       = (cust_stats tC5).filter (fun cs => decide (cs.totalRevenue = q))) ∧
     (∀ a ∈ top_10 tC5, ∀ b ∈ (sortDescBy (·.totalRevenue) (cust_stats tC5)).drop 10,
       b.totalRevenue ≤ a.totalRevenue) ∧
     List.Perm (top_10 tC5 ++ (sortDescBy (·.totalRevenue) (cust_stats tC5)).drop 10)
       (cust_stats tC5) ∧
     top_10_share tC5 = ((top_10 tC5).map (·.totalRevenue)).sum / totalRev tC5 * 100) :=
  ⟨by decide, top10_desc_and_share tC5 (by decide)⟩

theorem pricing_merged_sum (p : List PricingRow) (t : List TransRow) :
    ((pricing_merged p t).map (fun pr =>
        (pr.1.standardPrice - pr.1.contractedPrice) * (pr.2.nTrans : ℚ))).sum
      = ((p.filter (fun r => decide (r.cust ∈ t.map (·.cust)))).map
          (fun r => (r.standardPrice - r.contractedPrice) * (custTransSum t r.cust : ℚ))).sum := by
  induction p with
  | nil => rfl
  | cons r p ih =>
      by_cases hc : r.cust ∈ t.map (·.cust)
      · have hfr : (((cust_stats t).find? (fun cs => decide (cs.cust = r.cust))).map
            (fun cs => (r, cs))) = some (r, mkCustStat t r.cust) := by
          rw [cust_stats_find? t r.cust, if_pos hc, Option.map_some']
        have hfm : pricing_merged (r :: p) t
            = (r, mkCustStat t r.cust) :: pricing_merged p t := by
          simp only [pricing_merged, List.filterMap_cons, hfr]
        have hfl : (r :: p).filter (fun x => decide (x.cust ∈ t.map (·.cust)))
            = r :: p.filter (fun x => decide (x.cust ∈ t.map (·.cust))) := by
          rw [List.filter_cons, if_pos (by simpa using hc)]
        rw [hfm, List.map_cons, List.sum_cons, hfl, List.map_cons, List.sum_cons, ih]
        rfl
      · have hfr : (((cust_stats t).find? (fun cs => decide (cs.cust = r.cust))).map
            (fun cs => (r, cs))) = none := by
          rw [cust_stats_find? t r.cust, if_neg hc, Option.map_none']
        have hfm : pricing_merged (r :: p) t = pricing_merged p t := by
          simp only [pricing_merged, List.filterMap_cons, hfr]
        have hfl : (r :: p).filter (fun x => decide (x.cust ∈ t.map (·.cust)))
            = p.filter (fun x => decide (x.cust ∈ t.map (·.cust))) := by
          rw [List.filter_cons, if_neg (by simpa using hc)]
        rw [hfm, hfl, ih]

/-- Claim C6 (confirmed): revenue leakage sums, over exactly the pricing
rows whose customer also appears in Transaction Data (the inner join;
customers absent from either side are excluded, and with unique pricing
Customer IDs each such customer appears exactly once), the price gap
times that customer's total transaction count; the spec's example with
Standard 120, Contracted 100 and 8 transactions contributes 160. -/
theorem rev_leakage_inner_join (p : List PricingRow) (t : List TransRow)
    (hnd : (p.map (·.cust)).Nodup) :
    rev_lost p t
      = ((p.filter (fun r => decide (r.cust ∈ t.map (·.cust)))).map
          (fun r => (r.standardPrice - r.contractedPrice) * (custTransSum t r.cust : ℚ))).sum ∧
    ((p.filter (fun r => decide (r.cust ∈ t.map (·.cust)))).map (·.cust)).Nodup ∧
    rev_lost pC6 tC6 = 160 := by
  refine ⟨pricing_merged_sum p t, hnd.sublist ((List.filter_sublist _).map _), ?_⟩
  norm_num [rev_lost, pricing_merged, cust_stats, custKeys, mkCustStat, custTransSum,
    custRevSum, pC6, tC6, List.insertionSort, List.orderedInsert, List.dedup_cons_of_mem,
    List.dedup_cons_of_not_mem, List.filterMap_cons, List.find?]

/-- Witness for rev_leakage_inner_join at the spec's leakage example. -/
theorem rev_leakage_inner_join_witness :
    (pC6.map (·.cust)).Nodup ∧
    (rev_lost pC6 tC6
       = ((pC6.filter (fun r => decide (r.cust ∈ tC6.map (·.cust)))).map
           (fun r => (r.standardPrice - r.contractedPrice) * (custTransSum tC6 r.cust : ℚ))).sum ∧
     ((pC6.filter (fun r => decide (r.cust ∈ tC6.map (·.cust)))).map (·.cust)).Nodup ∧
     rev_lost pC6 tC6 = 160) :=
  ⟨by decide, rev_leakage_inner_join pC6 tC6 (by decide)⟩

theorem behavior_stats_mem (s : List SupportRow) (t : List TransRow) (br : BehaviorRow)
    (h : br ∈ behavior s t) : br.stats ∈ cust_stats t := by
  rcases List.mem_filterMap.mp h with ⟨r, _, hf⟩
  rcases Option.map_eq_some'.mp hf with ⟨cs, hfind, hcs⟩
  have hmem := List.mem_of_find?_eq_some hfind
  rw [← hcs]
  exact hmem

/-- Claim C7 (confirmed): on well-formed data (every transaction row has
a positive No. of Transactions, so every Yield is a genuine finite
quotient), each joined customer's Payment Loss is Yield times Payment
Failures, the total payment loss is their sum, the top-15 listing is
ordered by Payment Loss descending, and a customer with zero Payment
Failures has zero Payment Loss whatever its Yield. -/
theorem payment_loss_analysis (s : List SupportRow) (t : List TransRow)
    (hpos : ∀ r ∈ t, 0 < r.nTrans) :
    (∀ br ∈ behavior s t, 0 < br.stats.nTrans) ∧
    (∀ br ∈ behavior s t,
      paymentLoss br = br.stats.yieldPerTx * (br.support.payFailures : ℚ)) ∧
    total_loss s t = ((behavior s t).map paymentLoss).sum ∧
    (top_losers s t).Pairwise (fun a b => paymentLoss b ≤ paymentLoss a) ∧
    (∀ br ∈ behavior s t, br.support.payFailures = 0 → paymentLoss br = 0) := by
  refine ⟨?_, fun br _ => rfl, rfl, ?_, ?_⟩
  · intro br hbr
    rcases (mem_cust_stats t br.stats).mp (behavior_stats_mem s t br hbr) with ⟨c, hc, hcs⟩
    rw [hcs]
    exact custTransSum_pos t c hpos hc
  · exact (sortDescBy_pairwise paymentLoss (behavior s t)).sublist (List.take_sublist _ _)
  · intro br _ h0
    rw [paymentLoss, h0]
    simp

/-- Witness for payment_loss_analysis: the first support customer has
zero Payment Failures and nonzero Yield, the second loses 25 times 3. -/
theorem payment_loss_analysis_witness :
    (∀ r ∈ tW7, 0 < r.nTrans) ∧
    ((∀ br ∈ behavior sW7 tW7, 0 < br.stats.nTrans) ∧
     (∀ br ∈ behavior sW7 tW7,
       paymentLoss br = br.stats.yieldPerTx * (br.support.payFailures : ℚ)) ∧
     total_loss sW7 tW7 = ((behavior sW7 tW7).map paymentLoss).sum ∧
     (top_losers sW7 tW7).Pairwise (fun a b => paymentLoss b ≤ paymentLoss a) ∧
     (∀ br ∈ behavior sW7 tW7, br.support.payFailures = 0 → paymentLoss br = 0)) :=
  ⟨by decide, payment_loss_analysis sW7 tW7 (by decide)⟩

end Odex
